import Mathlib

/-
Verification of the bt_math expression evaluator (src/src/lib.rs).

The pipeline `evaluate_expression = evaluate_rpn ∘ to_rpn ∘ tokenize ∘ strip-spaces`
is modelled function by function from the Rust source.

Numeric model: the source computes on IEEE-754 `f64`.  This development models
f64 values exactly where the verified claims exercise them: finite values are
carried as exact rationals (`F64.num`), the IEEE special values NaN and ±infinity
are explicit constructors, and finite values whose exact magnitude the model does
not track (irrational results of transcendental functions, the constants PI and E)
are the constructors `unk` / `pi` / `e`.  Rounding, overflow to infinity and the
sign of zero are not modelled; no claim below depends on them.  The NaN-producing
domain rules of each operation (0/0, sqrt/ln of a negative, asin/acos out of
range, operations on NaN, inf - inf, ...) follow IEEE 754 as the source does.
-/

/-- Finite/NaN/infinity model of an f64 value.  `num q` is an exactly tracked
finite value; `pi` and `e` are the two library constants (finite, untracked
magnitude); `unk` is any other finite value the model does not track exactly. -/
inductive F64 where
  | num (q : ℚ)
  | nan
  | inf
  | neginf
  | pi
  | e
  | unk
deriving DecidableEq

/-- IEEE addition `a + b` on the model (exact on tracked finite values). -/
def fadd : F64 → F64 → F64
  | F64.nan, _ => F64.nan
  | _, F64.nan => F64.nan
  | F64.inf, F64.neginf => F64.nan
  | F64.neginf, F64.inf => F64.nan
  | F64.inf, _ => F64.inf
  | _, F64.inf => F64.inf
  | F64.neginf, _ => F64.neginf
  | _, F64.neginf => F64.neginf
  | F64.num a, F64.num b => F64.num (a + b)
  | _, _ => F64.unk

/-- IEEE subtraction `a - b` on the model. -/
def fsub : F64 → F64 → F64
  | F64.nan, _ => F64.nan
  | _, F64.nan => F64.nan
  | F64.inf, F64.inf => F64.nan
  | F64.neginf, F64.neginf => F64.nan
  | F64.inf, _ => F64.inf
  | _, F64.inf => F64.neginf
  | F64.neginf, _ => F64.neginf
  | _, F64.neginf => F64.inf
  | F64.num a, F64.num b => F64.num (a - b)
  | _, _ => F64.unk

/-- IEEE multiplication `a * b` on the model (`inf * 0 = NaN`; an infinity times
an untracked finite value has untracked sign, hence `unk`). -/
def fmul : F64 → F64 → F64
  | F64.nan, _ => F64.nan
  | _, F64.nan => F64.nan
  | F64.inf, F64.inf => F64.inf
  | F64.inf, F64.neginf => F64.neginf
  | F64.neginf, F64.inf => F64.neginf
  | F64.neginf, F64.neginf => F64.inf
  | F64.inf, F64.num b => if b = 0 then F64.nan else if 0 < b then F64.inf else F64.neginf
  | F64.num a, F64.inf => if a = 0 then F64.nan else if 0 < a then F64.inf else F64.neginf
  | F64.neginf, F64.num b => if b = 0 then F64.nan else if 0 < b then F64.neginf else F64.inf
  | F64.num a, F64.neginf => if a = 0 then F64.nan else if 0 < a then F64.neginf else F64.inf
  | F64.inf, _ => F64.unk
  | _, F64.inf => F64.unk
  | F64.neginf, _ => F64.unk
  | _, F64.neginf => F64.unk
  | F64.num a, F64.num b => F64.num (a * b)
  | _, _ => F64.unk

/-- IEEE division `a / b` on the model: `0/0 = NaN`, finite nonzero over zero is
a signed infinity (the model's zero is unsigned, matching a `0` literal in the
source input), finite over infinity is zero, infinity over infinity is NaN. -/
def fdiv : F64 → F64 → F64
  | F64.nan, _ => F64.nan
  | _, F64.nan => F64.nan
  | F64.inf, F64.inf => F64.nan
  | F64.inf, F64.neginf => F64.nan
  | F64.neginf, F64.inf => F64.nan
  | F64.neginf, F64.neginf => F64.nan
  | F64.inf, F64.num b => if 0 ≤ b then F64.inf else F64.neginf
  | F64.neginf, F64.num b => if 0 ≤ b then F64.neginf else F64.inf
  | F64.inf, _ => F64.unk
  | F64.neginf, _ => F64.unk
  | F64.num _, F64.inf => F64.num 0
  | F64.num _, F64.neginf => F64.num 0
  | F64.num a, F64.num b =>
      if b = 0 then (if a = 0 then F64.nan else if 0 < a then F64.inf else F64.neginf)
      else F64.num (a / b)
  | _, F64.inf => F64.num 0
  | _, F64.neginf => F64.num 0
  | _, _ => F64.unk

/-- IEEE `a.powf(b)` on the model.  `x^0 = 1` for every `x` (NaN included) and
`1^y = 1` for every `y`, as IEEE 754 `pow` prescribes; an integer exponent on a
tracked finite base is computed exactly; a fractional exponent on a negative
base is NaN; remaining exactly-representable special cases follow IEEE, and
everything else is an untracked finite value. -/
def fpow (a b : F64) : F64 :=
  match a, b with
  | _, F64.num ex =>
    if ex = 0 then F64.num 1
    else
      match a with
      | F64.num x =>
        if x = 1 then F64.num 1
        else if ex.den = 1 then
          (if x = 0 then (if 0 < ex.num then F64.num 0 else F64.inf) else F64.num (x ^ ex.num))
        else if x < 0 then F64.nan
        else if x = 0 then (if 0 < ex then F64.num 0 else F64.inf)
        else F64.unk
      | F64.nan => F64.nan
      | F64.inf => if 0 < ex then F64.inf else F64.num 0
      | F64.neginf =>
          if 0 < ex then (if ex.den = 1 ∧ ex.num % 2 = 1 then F64.neginf else F64.inf)
          else F64.num 0
      | _ => F64.unk
  | F64.num x, F64.nan => if x = 1 then F64.num 1 else F64.nan
  | _, F64.nan => F64.nan
  | F64.num x, F64.inf =>
      if x = 1 ∨ x = -1 then F64.num 1 else if -1 < x ∧ x < 1 then F64.num 0 else F64.inf
  | F64.num x, F64.neginf =>
      if x = 1 ∨ x = -1 then F64.num 1 else if -1 < x ∧ x < 1 then F64.inf else F64.num 0
  | F64.nan, _ => F64.nan
  | F64.inf, F64.inf => F64.inf
  | F64.inf, F64.neginf => F64.num 0
  | F64.neginf, F64.inf => F64.inf
  | F64.neginf, F64.neginf => F64.num 0
  | _, _ => F64.unk

/-- Model of `f64::sin`: NaN on NaN and on infinities, exact at 0. -/
def fsin : F64 → F64
  | F64.num q => if q = 0 then F64.num 0 else F64.unk
  | F64.nan => F64.nan
  | F64.inf => F64.nan
  | F64.neginf => F64.nan
  | _ => F64.unk

/-- Model of `f64::cos`. -/
def fcos : F64 → F64
  | F64.num q => if q = 0 then F64.num 1 else F64.unk
  | F64.nan => F64.nan
  | F64.inf => F64.nan
  | F64.neginf => F64.nan
  | _ => F64.unk

/-- Model of `f64::tan`. -/
def ftan : F64 → F64
  | F64.num q => if q = 0 then F64.num 0 else F64.unk
  | F64.nan => F64.nan
  | F64.inf => F64.nan
  | F64.neginf => F64.nan
  | _ => F64.unk

/-- Model of `f64::asin`: NaN outside [-1, 1]. -/
def fasin : F64 → F64
  | F64.num q => if q < -1 ∨ 1 < q then F64.nan else if q = 0 then F64.num 0 else F64.unk
  | F64.nan => F64.nan
  | F64.inf => F64.nan
  | F64.neginf => F64.nan
  | _ => F64.unk

/-- Model of `f64::acos`: NaN outside [-1, 1]. -/
def facos : F64 → F64
  | F64.num q => if q < -1 ∨ 1 < q then F64.nan else if q = 1 then F64.num 0 else F64.unk
  | F64.nan => F64.nan
  | F64.inf => F64.nan
  | F64.neginf => F64.nan
  | _ => F64.unk

/-- Model of `f64::atan` (total; finite at infinities, untracked there). -/
def fatan : F64 → F64
  | F64.num q => if q = 0 then F64.num 0 else F64.unk
  | F64.nan => F64.nan
  | F64.inf => F64.unk
  | F64.neginf => F64.unk
  | _ => F64.unk

/-- Model of `f64::exp`. -/
def fexp : F64 → F64
  | F64.num q => if q = 0 then F64.num 1 else F64.unk
  | F64.nan => F64.nan
  | F64.inf => F64.inf
  | F64.neginf => F64.num 0
  | _ => F64.unk

/-- Model of `f64::ln`: NaN on negatives, -infinity at 0. -/
def fln : F64 → F64
  | F64.num q =>
      if q < 0 then F64.nan else if q = 0 then F64.neginf
      else if q = 1 then F64.num 0 else F64.unk
  | F64.nan => F64.nan
  | F64.inf => F64.inf
  | F64.neginf => F64.nan
  | _ => F64.unk

/-- Fuel-driven search for an exponent `k` with `acc * b^i = target`; used to
recognise exact powers so that `log2`/`log10` are exact where IEEE is. -/
def findExpAux (b target : ℕ) : ℕ → ℕ → ℕ → Option ℕ
  | 0, acc, k => if acc = target then some k else none
  | Nat.succ fuel, acc, k =>
      if acc = target then some k else findExpAux b target fuel (acc * b) (k + 1)

/-- Returns `some k` iff `b ^ k = target` (for `b ≥ 2`, `target ≥ 1`). -/
def findExp (b target : ℕ) : Option ℕ := findExpAux b target target 1 0

/-- Model of a base-`b` logarithm (used for `log2`, `log10`): NaN on negatives,
-infinity at 0, exact on exact powers of the base, untracked otherwise. -/
def flogBase (b : ℕ) : F64 → F64
  | F64.num q =>
      if q < 0 then F64.nan
      else if q = 0 then F64.neginf
      else if q.den = 1 then
        (match findExp b q.num.toNat with
         | some k => F64.num k
         | none => F64.unk)
      else if q.num = 1 then
        (match findExp b q.den with
         | some k => F64.num (-(k : ℤ))
         | none => F64.unk)
      else F64.unk
  | F64.nan => F64.nan
  | F64.inf => F64.inf
  | F64.neginf => F64.nan
  | _ => F64.unk

/-- Model of `f64::log10`. -/
def flog10 : F64 → F64 := flogBase 10

/-- Model of `f64::log2`. -/
def flog2 : F64 → F64 := flogBase 2

/-- Model of `f64::abs` (exact). -/
def fabs : F64 → F64
  | F64.num q => F64.num (if q < 0 then -q else q)
  | F64.nan => F64.nan
  | F64.inf => F64.inf
  | F64.neginf => F64.inf
  | F64.pi => F64.pi
  | F64.e => F64.e
  | F64.unk => F64.unk

/-- Fuel-driven search for a natural square root (`some k` iff `k * k = n`). -/
def rootAux (n : ℕ) : ℕ → ℕ → Option ℕ
  | 0, k => if k * k = n then some k else none
  | Nat.succ fuel, k => if k * k = n then some k else rootAux n fuel (k + 1)

/-- Returns `some k` iff `k * k = n`. -/
def natRoot (n : ℕ) : Option ℕ := rootAux n n 0

/-- Model of `f64::sqrt`: NaN on negatives, exact on exact rational squares
(where IEEE sqrt is also exact), untracked otherwise. -/
def fsqrt : F64 → F64
  | F64.num q =>
      if q < 0 then F64.nan
      else
        match natRoot q.num.toNat, natRoot q.den with
        | some a, some b => F64.num ((a : ℚ) / (b : ℚ))
        | _, _ => F64.unk
  | F64.nan => F64.nan
  | F64.inf => F64.inf
  | F64.neginf => F64.nan
  | _ => F64.unk

/-- Token enum of the source (lib.rs lines 17-24): numbers, operator and
function names as strings, and the two parentheses. -/
inductive Token where
  | Number (v : F64)
  | Operator (op : String)
  | Function (func : String)
  | LeftParen
  | RightParen
deriving DecidableEq

/-- Model of `Token::precedence` (lib.rs lines 41-52). -/
def Token.precedence : Token → Int
  | Token.Operator op =>
      match op with
      | "+" | "-" => 1
      | "*" | "/" => 2
      | "^" => 3
      | _ => 0
  | Token.Function _ => 4
  | _ => 0

/-- Approximation of Rust's float formatting, used only where the source
compares a token's text against "(" and the operator symbols; no numeric
rendering ever equals one of those strings, which is all the proofs use. -/
def f64Str : F64 → String
  | F64.num q => if q.den = 1 then toString q.num else toString q.num ++ "/" ++ toString q.den
  | F64.nan => "NaN"
  | F64.inf => "inf"
  | F64.neginf => "-inf"
  | F64.pi => "3.141592653589793"
  | F64.e => "2.718281828459045"
  | F64.unk => "<untracked>"

/-- Model of `Token::to_string` (lib.rs lines 54-62). -/
def Token.to_string : Token → String
  | Token.Number v => f64Str v
  | Token.Operator op => op
  | Token.Function func => func
  | Token.LeftParen => "("
  | Token.RightParen => ")"

/-- Debug ({:?}) rendering of a token, used in the evaluator's error strings
(lib.rs lines 198, 220, 224); only `LeftParen`/`RightParen` ever reach it. -/
def debugFmt : Token → String
  | Token.Number v => "Number(" ++ f64Str v ++ ")"
  | Token.Operator op => "Operator(" ++ "\"" ++ op ++ "\"" ++ ")"
  | Token.Function func => "Function(" ++ "\"" ++ func ++ "\"" ++ ")"
  | Token.LeftParen => "LeftParen"
  | Token.RightParen => "RightParen"

/-- Model of `is_operator` (lib.rs lines 119-121). -/
def is_operator (c : String) : Bool :=
  c == "+" || c == "-" || c == "*" || c == "/" || c == "^"

/-- Model of `evaluate_const` (lib.rs lines 124-130): PI and E resolve to their
float values (tracked symbolically here); anything else is returned as the
error payload. -/
def evaluate_const (pConst : String) : Except String F64 :=
  match pConst with
  | "PI" => Except.ok F64.pi
  | "E" => Except.ok F64.e
  | _ => Except.error pConst

/-- Literal alternatives of the token regex (lib.rs line 78) after the leading
number alternative, in the regex's order; the regex crate's leftmost-first
semantics tries them in exactly this order at each position. -/
def literals : List String :=
  ["+", "-", "*", "/", "^", "(", ")", "ln", "log2", "exp", "asin", "acos",
   "atan", "sin", "cos", "tan", "abs", "sqrt", "log10", "PI", "E"]

/-- First literal alternative that matches at this position (as a prefix),
returning the matched text and its length. -/
def findLit (cs : List Char) : List String → Option (String × ℕ)
  | [] => none
  | l :: ls => if l.data.isPrefixOf cs then some (l, l.data.length) else findLit cs ls

/-- One regex match attempt at the current position: the number alternative
`\d+\.?\d*` (greedy) first, then the literal alternatives in order.  Returns
the matched text and the number of characters consumed; `none` when no
alternative matches at this position. -/
def scanTok (cs : List Char) : Option (String × ℕ) :=
  match cs with
  | [] => none
  | c :: _ =>
    if c.isDigit then
      let ip := cs.takeWhile Char.isDigit
      match cs.dropWhile Char.isDigit with
      | '.' :: r2 =>
        let fp := r2.takeWhile Char.isDigit
        some (String.mk (ip ++ '.' :: fp), ip.length + 1 + fp.length)
      | _ => some (String.mk ip, ip.length)
    else findLit cs literals

/-- Model of `captures_iter`: repeatedly take the leftmost match, skipping one
unmatched character at a time (unmatched text produces no token).  The fuel is
the remaining length; every step consumes at least one character, so an initial
fuel of `cs.length` reproduces the loop exactly. -/
def lexLoop : ℕ → List Char → List String
  | 0, _ => []
  | Nat.succ fuel, cs =>
    match scanTok cs with
    | some (t, n) => t :: lexLoop fuel (cs.drop n)
    | none =>
      match cs with
      | [] => []
      | _ :: rest => lexLoop fuel rest

/-- All regex matches of the expression, in order. -/
def rawTokens (cs : List Char) : List String := lexLoop cs.length cs

/-- Numeric value of a digit string. -/
def digitsVal (ds : List Char) : ℕ := ds.foldl (fun a c => 10 * a + (c.toNat - 48)) 0

/-- Model of `f64::from_str` restricted to the shapes the lexer can produce:
`digits` or `digits.digits*` parse exactly (the model carries the exact
rational; IEEE rounding of non-representable decimals is not modelled), and
every operator, parenthesis or name fails to parse.  (Rust would also accept
forms like ".5" or "inf" that the token regex never produces.) -/
def fromStrF64 (s : String) : Option F64 :=
  match s.data with
  | [] => none
  | cs =>
    let ip := cs.takeWhile Char.isDigit
    if ip = [] then none
    else
      match cs.dropWhile Char.isDigit with
      | [] => some (F64.num (digitsVal ip))
      | '.' :: fr =>
        if fr.all Char.isDigit then
          some (F64.num ((digitsVal ip : ℚ) + (digitsVal fr : ℚ) / (10 : ℚ) ^ fr.length))
        else none
      | _ => none

/-- Body of the tokenize loop (lib.rs lines 84-114) for one matched text:
numbers parse first; a `-` is rewritten to `Number(-1), Operator(*)` when it is
the first token or the last emitted token prints as "(" or as an operator;
`+ * / ^` and the parentheses map to their tokens; `PI`/`E` resolve via
`evaluate_const`; any other match becomes a Function token. -/
def tokenStep (tokens : List Token) (tok : String) : List Token :=
  match fromStrF64 tok with
  | some v => tokens ++ [Token.Number v]
  | none =>
    if tok == "-" then
      match tokens.getLast? with
      | none => tokens ++ [Token.Number (F64.num (-1)), Token.Operator "*"]
      | some c =>
        if Token.to_string c == "(" || is_operator (Token.to_string c) then
          tokens ++ [Token.Number (F64.num (-1)), Token.Operator "*"]
        else
          tokens ++ [Token.Operator tok]
    else if tok == "+" || tok == "*" || tok == "/" || tok == "^" then
      tokens ++ [Token.Operator tok]
    else if tok == "(" then
      tokens ++ [Token.LeftParen]
    else if tok == ")" then
      tokens ++ [Token.RightParen]
    else
      match evaluate_const tok with
      | Except.ok v => tokens ++ [Token.Number v]
      | Except.error _ => tokens ++ [Token.Function tok]

/-- Token stream of an expression string: regex matches folded through the
classification step. -/
def tokenize_core (s : String) : List Token :=
  (rawTokens s.data).foldl tokenStep []

/-- Model of `tokenize` (lib.rs lines 77-117).  The Rust function's only exit
is `Ok(tokens)`: unmatched text is skipped by `captures_iter`, never reported. -/
def tokenize (s : String) : Except String (List Token) :=
  Except.ok (tokenize_core s)

/-- Whether a token matches `Token::Operator(_) | Token::Function(_)`
(the guard at lib.rs line 154). -/
def Token.isOpFun : Token → Bool
  | Token.Operator _ => true
  | Token.Function _ => true
  | _ => false

/-- Model of `matches!(token, _p_token)` (lib.rs line 156): `_p_token` is an
identifier pattern, which binds anything, so the Rust test succeeds for every
token — the intended comparison against the `^` token at line 153 never
happens.  The definition is therefore constantly true. -/
def matchesPTok (_token : Token) : Bool := true

/-- The source's pop condition for an incoming operator/function `token`
against a stack top `op` (lib.rs lines 154-156). -/
def popCond (token op : Token) : Bool :=
  op.isOpFun &&
    (decide (op.precedence > token.precedence) ||
      (op.precedence == token.precedence && matchesPTok token))

/-- Pops of the operator stack performed by an incoming operator/function
(the while-let at lib.rs lines 152-162): returns the tokens flushed to the
output, in pop order, and the remaining stack.  The list head is the stack
top (the `VecDeque`'s back). -/
def opPop (token : Token) : List Token → List Token × List Token
  | [] => ([], [])
  | op :: rest =>
    if popCond token op then
      let (flushed, remaining) := opPop token rest
      (op :: flushed, remaining)
    else ([], op :: rest)

/-- Pops performed by a right parenthesis (lib.rs lines 144-149): flush until
a LeftParen is popped and discarded; an emptied stack stops silently. -/
def rpPop : List Token → List Token × List Token
  | [] => ([], [])
  | Token.LeftParen :: rest => ([], rest)
  | op :: rest =>
    let (flushed, remaining) := rpPop rest
    (op :: flushed, remaining)

/-- One step of the shunting-yard loop (lib.rs lines 138-167) on the state
(output, operator stack); the final catch-all arm handles exactly the
`Token::Operator(_) | Token::Function(_)` match arm of the source. -/
def srStep : List Token × List Token → Token → List Token × List Token
  | (output, operators), Token.Number v => (output ++ [Token.Number v], operators)
  | (output, operators), Token.LeftParen => (output, Token.LeftParen :: operators)
  | (output, operators), Token.RightParen =>
    let (flushed, remaining) := rpPop operators
    (output ++ flushed, remaining)
  | (output, operators), token =>
    let (flushed, remaining) := opPop token operators
    (output ++ flushed, token :: remaining)

/-- The complete conversion loop plus the final drain (lib.rs lines 169-171),
which pushes every remaining stack entry — LeftParens included — to the output. -/
def to_rpn_core (tokens : List Token) : List Token :=
  let (output, operators) := tokens.foldl srStep ([], [])
  output ++ operators

/-- Model of `to_rpn` (lib.rs lines 134-174).  The Rust function's only exit is
`Ok(output)`: unbalanced parentheses are not detected here. -/
def to_rpn (tokens : List Token) : Except String (List Token) :=
  Except.ok (to_rpn_core tokens)

/-- Operator dispatch of the RPN evaluator (lib.rs lines 192-199), with the
source's error for a symbol outside the five-operator set. -/
def applyOp (op : String) (a b : F64) : Except String F64 :=
  match op with
  | "+" => Except.ok (fadd a b)
  | "-" => Except.ok (fsub a b)
  | "*" => Except.ok (fmul a b)
  | "/" => Except.ok (fdiv a b)
  | "^" => Except.ok (fpow a b)
  | _ => Except.error ("Unknown operator " ++ debugFmt (Token.Operator op))

/-- Function dispatch of the RPN evaluator (lib.rs lines 206-221): note that
`log` maps to log10, exactly as `log10` does. -/
def applyFunction (func : String) (arg : F64) : Except String F64 :=
  match func with
  | "sin" => Except.ok (fsin arg)
  | "cos" => Except.ok (fcos arg)
  | "tan" => Except.ok (ftan arg)
  | "asin" => Except.ok (fasin arg)
  | "acos" => Except.ok (facos arg)
  | "atan" => Except.ok (fatan arg)
  | "exp" => Except.ok (fexp arg)
  | "ln" => Except.ok (fln arg)
  | "log" => Except.ok (flog10 arg)
  | "log2" => Except.ok (flog2 arg)
  | "abs" => Except.ok (fabs arg)
  | "sqrt" => Except.ok (fsqrt arg)
  | "log10" => Except.ok (flog10 arg)
  | _ => Except.error ("Unknown function: " ++ debugFmt (Token.Function func))

/-- The evaluator loop (lib.rs lines 180-226) with its operand stack (head =
stack top), followed by the final pop (lines 228-230): an operator pops `b`
then `a` and pushes the result of `a op b`; a function pops one argument; a
parenthesis in the stream is an invalid-token error; at the end the stack top
is returned (surplus values are ignored) and an empty stack is the no-result
error. -/
def evaluate_rpn_aux : List Token → List F64 → Except String F64
  | [], stack =>
    match stack with
    | v :: _ => Except.ok v
    | [] => Except.error "Invalid expression: no result on stack"
  | Token.Number v :: rest, stack => evaluate_rpn_aux rest (v :: stack)
  | Token.Operator op :: rest, stack =>
    match stack with
    | b :: a :: stack' =>
      (match applyOp op a b with
       | Except.ok r => evaluate_rpn_aux rest (r :: stack')
       | Except.error msg => Except.error msg)
    | [_] => Except.error "Invalid expression: not enough values for operator (a)"
    | [] => Except.error "Invalid expression: not enough values for operator (b)"
  | Token.Function func :: rest, stack =>
    match stack with
    | arg :: stack' =>
      (match applyFunction func arg with
       | Except.ok r => evaluate_rpn_aux rest (r :: stack')
       | Except.error msg => Except.error msg)
    | [] => Except.error "Invalid expression: not enough values for function"
  | t :: _, _ => Except.error ("Invalid token: " ++ debugFmt t)

/-- Model of `evaluate_rpn` (lib.rs lines 178-231). -/
def evaluate_rpn (rpn : List Token) : Except String F64 :=
  evaluate_rpn_aux rpn []

/-- Model of `expression.replace(" ", "")` (lib.rs line 69): every space
character (and only the space character) is removed. -/
def stripSpaces (s : String) : String :=
  String.mk (s.data.filter (fun c => !(c == ' ')))

/-- Model of the public entry point `evaluate_expression` (lib.rs lines 68-73):
strip spaces, tokenize, convert to RPN, evaluate. -/
def evaluate_expression (expression : String) : Except String F64 :=
  match tokenize (stripSpaces expression) with
  | Except.error msg => Except.error msg
  | Except.ok tokens =>
    match to_rpn tokens with
    | Except.error msg => Except.error msg
    | Except.ok rpn => evaluate_rpn rpn

/-- Binary operators of an arithmetic expression, for the claim-side notion of
"standard operator-precedence evaluation". -/
inductive BOp where
  | add
  | sub
  | mul
  | div
  | pow
deriving DecidableEq

/-- Symbol of a binary operator, as the lexer emits it. -/
def opStr : BOp → String
  | BOp.add => "+"
  | BOp.sub => "-"
  | BOp.mul => "*"
  | BOp.div => "/"
  | BOp.pow => "^"

/-- Semantics of a binary operator on the f64 model. -/
def applyB : BOp → F64 → F64 → F64
  | BOp.add => fadd
  | BOp.sub => fsub
  | BOp.mul => fmul
  | BOp.div => fdiv
  | BOp.pow => fpow

/-- Precedence of a binary operator, read off the source's token precedence. -/
def opPrec (b : BOp) : Int := Token.precedence (Token.Operator (opStr b))

/-- Abstract syntax of an arithmetic expression (claim side): literals and the
five binary operators. -/
inductive AExpr where
  | lit (v : F64)
  | bin (op : BOp) (l r : AExpr)

/-- Standard recursive ("textbook") evaluation of an arithmetic expression —
the claim-side meaning the pipeline's result is compared against. -/
def evalE : AExpr → F64
  | AExpr.lit v => v
  | AExpr.bin op l r => applyB op (evalE l) (evalE r)

/-- Root precedence of an expression; literals never need parentheses. -/
def rootPrec : AExpr → Int
  | AExpr.lit _ => 5
  | AExpr.bin op _ _ => opPrec op

/-- Modelled from the spec: the standard infix token rendering of an
expression under operator precedence with left-to-right grouping of
equal-precedence operators, inserting parentheses exactly where the tree
shape overrides precedence.  This is the claim-side definition of a "valid
arithmetic expression whose standard reading is the given tree". -/
def exprTokens : AExpr → List Token
  | AExpr.lit v => [Token.Number v]
  | AExpr.bin op l r =>
    (if rootPrec l < opPrec op
     then Token.LeftParen :: (exprTokens l ++ [Token.RightParen])
     else exprTokens l)
    ++ [Token.Operator (opStr op)]
    ++ (if rootPrec r < opPrec op + 1
        then Token.LeftParen :: (exprTokens r ++ [Token.RightParen])
        else exprTokens r)

/-- Rendering of a subexpression appearing at binding level `lvl`: wrapped in
parentheses exactly when its root binds weaker than the context requires. -/
def wrapTokens (x : AExpr) (lvl : Int) : List Token :=
  if rootPrec x < lvl
  then Token.LeftParen :: (exprTokens x ++ [Token.RightParen])
  else exprTokens x

/-- Postfix (RPN) form of an expression: operands before their operator. -/
def rpnOfExpr : AExpr → List Token
  | AExpr.lit v => [Token.Number v]
  | AExpr.bin op l r => rpnOfExpr l ++ rpnOfExpr r ++ [Token.Operator (opStr op)]

/-- Pending operator stack (top first) left by the shunting-yard loop after
consuming the unparenthesised rendering of an expression. -/
def spineC : AExpr → List Token
  | AExpr.lit _ => []
  | AExpr.bin op _ r =>
    (if rootPrec r < opPrec op + 1 then [] else spineC r) ++ [Token.Operator (opStr op)]

/-- Output already flushed by the shunting-yard loop after consuming the
unparenthesised rendering of an expression. -/
def flushC : AExpr → List Token
  | AExpr.lit v => [Token.Number v]
  | AExpr.bin op l r =>
    rpnOfExpr l ++ (if rootPrec r < opPrec op + 1 then rpnOfExpr r else flushC r)

/-- Pending stack left after a rendering at level `lvl` (empty when the
rendering was parenthesised, since the right parenthesis flushes it). -/
def spineAt (x : AExpr) (lvl : Int) : List Token :=
  if rootPrec x < lvl then [] else spineC x

/-- Output flushed after a rendering at level `lvl`. -/
def flushAt (x : AExpr) (lvl : Int) : List Token :=
  if rootPrec x < lvl then rpnOfExpr x else flushC x

/-- Invariant on the operator stack under which a rendering at level `lvl` is
consumed: the stack is empty, or its top is a LeftParen, or an
operator/function binding strictly weaker than `lvl`. -/
def stackOK (st : List Token) (lvl : Int) : Prop :=
  match st with
  | [] => True
  | t :: _ => t = Token.LeftParen ∨ (t.isOpFun = true ∧ t.precedence < lvl)

/-- Modelled from the claim's wording for the unary-minus rule: the rewrite
fires when there is no previous token, or the last emitted token is a
LeftParen or any Operator. -/
def specMinusContext (toks : List Token) : Bool :=
  match toks.getLast? with
  | none => true
  | some Token.LeftParen => true
  | some (Token.Operator _) => true
  | some _ => false

/-- Well-formedness of a token as the lexer can actually emit it: operator
tokens carry one of the five operator symbols, and no number or function
rendering collides with "(" or an operator symbol.  The source's minus-context
test compares rendered strings, so this is what makes it agree with the
claim's by-constructor description. -/
def tokenWF : Token → Prop
  | Token.Number v => f64Str v ≠ "(" ∧ is_operator (f64Str v) = false
  | Token.Operator op => is_operator op = true
  | Token.Function func => func ≠ "(" ∧ is_operator func = false
  | _ => True

/-- The thirteen function names the evaluator dispatches on
(lib.rs lines 206-221). -/
def functionNames : List String :=
  ["sin", "cos", "tan", "asin", "acos", "atan", "exp", "ln", "log", "log2", "abs",
   "sqrt", "log10"]

/-- Modelled from the claim's wording for C9: delete every whitespace
character — spaces, tabs, newlines — from the input. -/
def specDeleteWhitespace (s : String) : String :=
  String.mk (s.data.filter (fun c => !(c == ' ' || c == '\t' || c == '\n')))

/-- The source's pop test, rewritten: it holds exactly when the stack top is an
operator or function whose precedence is greater than or equal to the incoming
token's — the equality branch never consults which operator is incoming. -/
theorem popCond_iff (token op : Token) :
    popCond token op = true ↔ (op.isOpFun = true ∧ token.precedence ≤ op.precedence) := by
  simp only [popCond, matchesPTok, Bool.and_true, Bool.and_eq_true, Bool.or_eq_true,
    decide_eq_true_eq, beq_iff_eq]
  exact and_congr_right fun _ => by omega

/-- Unfolding of the shunting-yard step on an operator token. -/
theorem srStep_op (output operators : List Token) (s : String) :
    srStep (output, operators) (Token.Operator s)
      = (output ++ (opPop (Token.Operator s) operators).1,
         Token.Operator s :: (opPop (Token.Operator s) operators).2) := rfl

/-- Unfolding of the shunting-yard step on a right parenthesis. -/
theorem srStep_rp (output operators : List Token) :
    srStep (output, operators) Token.RightParen
      = (output ++ (rpPop operators).1, (rpPop operators).2) := rfl

/-- An incoming token pops exactly the maximal prefix of pop-condition tokens. -/
theorem opPop_flush (token : Token) (σ st : List Token)
    (hσ : ∀ t ∈ σ, popCond token t = true)
    (hst : ∀ t, st.head? = some t → popCond token t = false) :
    opPop token (σ ++ st) = (σ, st) := by
  induction σ with
  | nil =>
    simp only [List.nil_append]
    cases st with
    | nil => rfl
    | cons t rest => simp [opPop, hst t rfl]
  | cons t σ' ih =>
    have ht : popCond token t = true := hσ t (List.mem_cons_self t σ')
    have ih' := ih (fun x hx => hσ x (List.mem_cons_of_mem t hx))
    simp [opPop, ht, ih']

/-- A right parenthesis flushes everything above the first LeftParen and
discards that parenthesis. -/
theorem rpPop_flush (σ st : List Token) (hσ : ∀ t ∈ σ, t.isOpFun = true) :
    rpPop (σ ++ Token.LeftParen :: st) = (σ, st) := by
  induction σ with
  | nil => rfl
  | cons t σ' ih =>
    have ht := hσ t (List.mem_cons_self t σ')
    have ih' := ih (fun x hx => hσ x (List.mem_cons_of_mem t hx))
    cases t with
    | Number v => simp [Token.isOpFun] at ht
    | LeftParen => simp [Token.isOpFun] at ht
    | RightParen => simp [Token.isOpFun] at ht
    | Operator op => simp [rpPop, ih']
    | Function func => simp [rpPop, ih']

/-- The stack invariant is monotone in the level. -/
theorem stackOK_mono (st : List Token) (p q : Int) (h : stackOK st p) (hpq : p ≤ q) :
    stackOK st q := by
  cases st with
  | nil => trivial
  | cons t rest =>
    rcases h with h | ⟨h1, h2⟩
    · exact Or.inl h
    · exact Or.inr ⟨h1, lt_of_lt_of_le h2 hpq⟩

/-- Every pending-stack token is an operator/function binding at least as
strongly as the expression's root. -/
theorem spineC_mem (e : AExpr) : ∀ t ∈ spineC e, t.isOpFun = true ∧ rootPrec e ≤ t.precedence := by
  induction e with
  | lit v => intro t ht; simp [spineC] at ht
  | bin op l r ihl ihr =>
    intro t ht
    simp only [spineC, List.mem_append] at ht
    rcases ht with ht | ht
    · by_cases hr : rootPrec r < opPrec op + 1
      · simp [hr] at ht
      · simp only [if_neg hr] at ht
        obtain ⟨h1, h2⟩ := ihr t ht
        refine ⟨h1, ?_⟩
        have hor : rootPrec (AExpr.bin op l r) = opPrec op := rfl
        omega
    · simp only [List.mem_singleton] at ht
      subst ht
      exact ⟨rfl, le_refl _⟩

/-- The flushed output followed by the pending stack is the postfix form. -/
theorem flush_spine (e : AExpr) : flushC e ++ spineC e = rpnOfExpr e := by
  induction e with
  | lit v => rfl
  | bin op l r ihl ihr =>
    by_cases hr : rootPrec r < opPrec op + 1
    · simp [flushC, spineC, rpnOfExpr, hr]
    · simp only [flushC, spineC, rpnOfExpr, if_neg hr]
      rw [← ihr]
      simp [List.append_assoc]

/-- Version of `flush_spine` for a rendering at a binding level. -/
theorem flushAt_spineAt (x : AExpr) (lvl : Int) :
    flushAt x lvl ++ spineAt x lvl = rpnOfExpr x := by
  by_cases h : rootPrec x < lvl
  · simp [flushAt, spineAt, h]
  · simp [flushAt, spineAt, h, flush_spine x]

/-- Every token pending after a rendering at level `lvl` is an
operator/function binding at least as strongly as `lvl`. -/
theorem spineAt_mem (x : AExpr) (lvl : Int) :
    ∀ t ∈ spineAt x lvl, t.isOpFun = true ∧ lvl ≤ t.precedence := by
  intro t ht
  by_cases h : rootPrec x < lvl
  · simp [spineAt, h] at ht
  · simp only [spineAt, if_neg h] at ht
    obtain ⟨h1, h2⟩ := spineC_mem x t ht
    exact ⟨h1, by omega⟩

/-- Consuming a rendering at level `lvl` from a conforming stack appends the
flushed output and leaves the pending stack on top, given the loop behaves
that way on the bare rendering (the induction hypothesis of `srMain`). -/
theorem srAtAux (x : AExpr) (lvl : Int) (output st : List Token)
    (IH : ∀ out' st', stackOK st' (rootPrec x) →
        List.foldl srStep (out', st') (exprTokens x) = (out' ++ flushC x, spineC x ++ st'))
    (h : rootPrec x < lvl ∨ stackOK st (rootPrec x)) :
    List.foldl srStep (output, st) (wrapTokens x lvl)
      = (output ++ flushAt x lvl, spineAt x lvl ++ st) := by
  by_cases hx : rootPrec x < lvl
  · simp only [wrapTokens, if_pos hx, flushAt, spineAt]
    rw [List.foldl_cons]
    have h1 : srStep (output, st) Token.LeftParen = (output, Token.LeftParen :: st) := rfl
    rw [h1, List.foldl_append]
    rw [IH output (Token.LeftParen :: st) (Or.inl rfl)]
    simp only [List.foldl_cons, List.foldl_nil]
    rw [srStep_rp]
    have h2 : rpPop (spineC x ++ Token.LeftParen :: st) = (spineC x, st) :=
      rpPop_flush _ _ (fun t ht => (spineC_mem x t ht).1)
    rw [h2]
    simp [List.append_assoc, flush_spine x]
  · rcases h with h | h
    · exact absurd h hx
    · simp only [wrapTokens, if_neg hx, flushAt, spineAt]
      rw [IH output st h]

/-- Main shunting-yard invariant: consuming the precedence-faithful rendering
of an expression from a conforming stack flushes exactly `flushC` to the
output and leaves exactly `spineC` pending above the unchanged stack. -/
theorem srMain (e : AExpr) : ∀ (output st : List Token), stackOK st (rootPrec e) →
    List.foldl srStep (output, st) (exprTokens e) = (output ++ flushC e, spineC e ++ st) := by
  induction e with
  | lit v =>
    intro output st _
    simp [exprTokens, flushC, spineC, srStep]
  | bin op l r ihl ihr =>
    intro output st hOK
    have hprec : Token.precedence (Token.Operator (opStr op)) = opPrec op := rfl
    have hroot : rootPrec (AExpr.bin op l r) = opPrec op := rfl
    have hEt : exprTokens (AExpr.bin op l r)
        = wrapTokens l (opPrec op)
          ++ (Token.Operator (opStr op) :: wrapTokens r (opPrec op + 1)) := by
      simp [exprTokens, wrapTokens, List.append_assoc]
    rw [hEt, List.foldl_append]
    have hchoiceL : rootPrec l < opPrec op ∨ stackOK st (rootPrec l) := by
      by_cases hl : rootPrec l < opPrec op
      · exact Or.inl hl
      · exact Or.inr (stackOK_mono st (opPrec op) (rootPrec l) hOK (by omega))
    rw [srAtAux l (opPrec op) output st ihl hchoiceL]
    rw [List.foldl_cons, srStep_op]
    have hpop : opPop (Token.Operator (opStr op)) (spineAt l (opPrec op) ++ st)
        = (spineAt l (opPrec op), st) := by
      apply opPop_flush
      · intro t ht
        obtain ⟨h1, h2⟩ := spineAt_mem l (opPrec op) t ht
        rw [popCond_iff]
        exact ⟨h1, by omega⟩
      · intro t ht
        cases st with
        | nil => simp at ht
        | cons u rest =>
          simp only [List.head?_cons, Option.some.injEq] at ht
          subst ht
          rw [Bool.eq_false_iff]
          intro hc
          rw [popCond_iff] at hc
          obtain ⟨hc1, hc2⟩ := hc
          rcases hOK with hu | ⟨hu1, hu2⟩
          · subst hu
            simp [Token.isOpFun] at hc1
          · omega
    rw [hpop]
    have hstack2 : stackOK (Token.Operator (opStr op) :: st) (opPrec op + 1) :=
      Or.inr ⟨rfl, by omega⟩
    have hchoiceR : rootPrec r < opPrec op + 1
        ∨ stackOK (Token.Operator (opStr op) :: st) (rootPrec r) := by
      by_cases hr : rootPrec r < opPrec op + 1
      · exact Or.inl hr
      · exact Or.inr (stackOK_mono _ (opPrec op + 1) (rootPrec r) hstack2 (by omega))
    rw [srAtAux r (opPrec op + 1) _ _ ihr hchoiceR]
    have hre : (output ++ flushAt l (opPrec op)) ++ spineAt l (opPrec op)
        = output ++ rpnOfExpr l := by
      rw [List.append_assoc, flushAt_spineAt]
    rw [hre]
    by_cases hr : rootPrec r < opPrec op + 1
    · simp [flushC, spineC, flushAt, spineAt, hr, List.append_assoc]
    · simp [flushC, spineC, flushAt, spineAt, hr, List.append_assoc]

/-- Conversion of the precedence-faithful rendering yields exactly the postfix
form of the expression. -/
theorem to_rpn_exprTokens (e : AExpr) : to_rpn_core (exprTokens e) = rpnOfExpr e := by
  have h := srMain e [] [] trivial
  simp only [to_rpn_core, h]
  simp [flush_spine e]

/-- Operator dispatch agrees with the claim-side operator semantics. -/
theorem applyOp_opStr (b : BOp) (a c : F64) :
    applyOp (opStr b) a c = Except.ok (applyB b a c) := by
  cases b <;> rfl

/-- Unfolding of the evaluator on an operator with two stacked operands. -/
theorem aux_op_step (s : String) (rest : List Token) (a b : F64) (st : List F64) :
    evaluate_rpn_aux (Token.Operator s :: rest) (b :: a :: st)
      = (match applyOp s a b with
         | Except.ok r => evaluate_rpn_aux rest (r :: st)
         | Except.error msg => Except.error msg) := rfl

/-- Evaluating the postfix form of an expression pushes its standard value. -/
theorem eval_rpnOfExpr (e : AExpr) : ∀ (rest : List Token) (st : List F64),
    evaluate_rpn_aux (rpnOfExpr e ++ rest) st = evaluate_rpn_aux rest (evalE e :: st) := by
  induction e with
  | lit v => intro rest st; rfl
  | bin op l r ihl ihr =>
    intro rest st
    simp only [rpnOfExpr, List.append_assoc, List.singleton_append]
    rw [ihl, ihr, aux_op_step, applyOp_opStr]
    rfl

/-- C1: evaluation follows standard operator precedence with parentheses
overriding it — for every arithmetic expression rendered in standard infix
form the pipeline's conversion and evaluation produce exactly the standard
recursive value, and in particular "2 + 3 * 4" evaluates to 14.0 and
"(2 + 3) * 4" to 20.0. -/
theorem claim_C1 :
    (∀ e : AExpr, to_rpn (exprTokens e) = Except.ok (rpnOfExpr e)
        ∧ evaluate_rpn (rpnOfExpr e) = Except.ok (evalE e))
    ∧ evaluate_expression "2 + 3 * 4" = Except.ok (F64.num 14)
    ∧ evaluate_expression "(2 + 3) * 4" = Except.ok (F64.num 20) := by
  refine ⟨fun e => ⟨?_, ?_⟩, ?_, ?_⟩
  · simp [to_rpn, to_rpn_exprTokens e]
  · have h := eval_rpnOfExpr e [] []
    rw [List.append_nil] at h
    have h2 : evaluate_rpn_aux [] [evalE e] = Except.ok (evalE e) := rfl
    rw [h2] at h
    exact h
  · with_unfolding_all rfl
  · with_unfolding_all rfl

/-- C2: in to_rpn an incoming operator/function pops the stack top exactly
when the top is an Operator or Function of greater or equal precedence; the
equal-precedence test (the `matches!` against `_p_token`) is always true, for
`^` as for every operator, so exponentiation associates to the left:
"2^3^2" = "(2^3)^2" = 64.0. -/
theorem claim_C2 :
    (∀ token op : Token,
        popCond token op = true ↔ (op.isOpFun = true ∧ token.precedence ≤ op.precedence))
    ∧ (∀ token : Token, matchesPTok token = true)
    ∧ evaluate_expression "2^3^2" = Except.ok (F64.num 64)
    ∧ evaluate_expression "(2^3)^2" = Except.ok (F64.num 64) :=
  ⟨popCond_iff, fun _ => rfl, by with_unfolding_all rfl, by with_unfolding_all rfl⟩

/-- C3: a scanned "-" whose token list is empty, or whose last emitted token is
a LeftParen or an Operator, is rewritten to Number(-1), Operator("*"), and
otherwise becomes the subtraction operator; consequently "-3--3" = 0.0. -/
theorem claim_C3 :
    (∀ toks : List Token, (∀ t, toks.getLast? = some t → tokenWF t) →
        tokenStep toks "-" =
          if specMinusContext toks
          then toks ++ [Token.Number (F64.num (-1)), Token.Operator "*"]
          else toks ++ [Token.Operator "-"])
    ∧ evaluate_expression "-3--3" = Except.ok (F64.num 0) := by
  constructor
  · intro toks h
    have hnum : fromStrF64 "-" = none := rfl
    simp only [tokenStep, hnum]
    cases hL : toks.getLast? with
    | none => simp [specMinusContext, hL]
    | some c =>
      have hc := h c hL
      cases c with
      | LeftParen => simp [specMinusContext, hL, Token.to_string]
      | Operator op =>
        have hop : is_operator op = true := hc
        simp [specMinusContext, hL, Token.to_string, hop]
      | Number v =>
        obtain ⟨h1, h2⟩ := hc
        simp [specMinusContext, hL, Token.to_string, h1, h2]
      | Function func =>
        obtain ⟨h1, h2⟩ := hc
        simp [specMinusContext, hL, Token.to_string, h1, h2]
      | RightParen =>
        simp [specMinusContext, hL, Token.to_string, is_operator]
  · with_unfolding_all rfl

/-- Witness for C3 at a concrete input: the last emitted token is a LeftParen,
so the minus is rewritten to Number(-1), Operator("*"). -/
theorem claim_C3_witness :
    (∀ t, ([Token.LeftParen] : List Token).getLast? = some t → tokenWF t)
    ∧ tokenStep [Token.LeftParen] "-"
      = [Token.LeftParen, Token.Number (F64.num (-1)), Token.Operator "*"] := by
  have hwf : ∀ t, ([Token.LeftParen] : List Token).getLast? = some t → tokenWF t := by
    intro t ht
    simp only [List.getLast?_singleton, Option.some.injEq] at ht
    subst ht
    trivial
  refine ⟨hwf, ?_⟩
  rw [claim_C3.1 [Token.LeftParen] hwf]
  rfl

/-- C4: tokenize returns Ok on every input — unmatched text is skipped without
a token and without an error; "abc" produces no token and the pipeline fails
with the no-result error. -/
theorem claim_C4 :
    (∀ s : String, tokenize s = Except.ok (tokenize_core s))
    ∧ tokenize "abc" = Except.ok []
    ∧ evaluate_expression "abc" = Except.error "Invalid expression: no result on stack" :=
  ⟨fun _ => rfl, by with_unfolding_all rfl, by with_unfolding_all rfl⟩

/-- C5: to_rpn returns Ok on every token sequence — malformed parenthesization
is deferred to evaluation, where a parenthesis surviving into the RPN stream
is rejected; "(2 + 3" leaves its LeftParen in the RPN output and fails there. -/
theorem claim_C5 :
    (∀ ts : List Token, to_rpn ts = Except.ok (to_rpn_core ts))
    ∧ tokenize_core "(2+3"
      = [Token.LeftParen, Token.Number (F64.num 2), Token.Operator "+", Token.Number (F64.num 3)]
    ∧ to_rpn_core
        [Token.LeftParen, Token.Number (F64.num 2), Token.Operator "+", Token.Number (F64.num 3)]
      = [Token.Number (F64.num 2), Token.Number (F64.num 3), Token.Operator "+", Token.LeftParen]
    ∧ evaluate_expression "(2 + 3" = Except.error "Invalid token: LeftParen" :=
  ⟨fun _ => rfl, by with_unfolding_all rfl, by with_unfolding_all rfl, by with_unfolding_all rfl⟩

/-- C6: an operator pops b first, then a, computes a+b, a-b, a*b, a/b or a^b
and pushes the result; with fewer than two stacked values it fails with the
matching not-enough-operands error, and a function on an empty stack fails
likewise; "5 - 3" = 2.0 exhibits the operand order. -/
theorem claim_C6 :
    (∀ (rest : List Token) (a b : F64) (st : List F64),
        evaluate_rpn_aux (Token.Operator "+" :: rest) (b :: a :: st)
          = evaluate_rpn_aux rest (fadd a b :: st)
      ∧ evaluate_rpn_aux (Token.Operator "-" :: rest) (b :: a :: st)
          = evaluate_rpn_aux rest (fsub a b :: st)
      ∧ evaluate_rpn_aux (Token.Operator "*" :: rest) (b :: a :: st)
          = evaluate_rpn_aux rest (fmul a b :: st)
      ∧ evaluate_rpn_aux (Token.Operator "/" :: rest) (b :: a :: st)
          = evaluate_rpn_aux rest (fdiv a b :: st)
      ∧ evaluate_rpn_aux (Token.Operator "^" :: rest) (b :: a :: st)
          = evaluate_rpn_aux rest (fpow a b :: st))
    ∧ (∀ (op : String) (rest : List Token),
        evaluate_rpn_aux (Token.Operator op :: rest) []
          = Except.error "Invalid expression: not enough values for operator (b)")
    ∧ (∀ (op : String) (rest : List Token) (a : F64),
        evaluate_rpn_aux (Token.Operator op :: rest) [a]
          = Except.error "Invalid expression: not enough values for operator (a)")
    ∧ (∀ (func : String) (rest : List Token),
        evaluate_rpn_aux (Token.Function func :: rest) []
          = Except.error "Invalid expression: not enough values for function")
    ∧ evaluate_expression "5 - 3" = Except.ok (F64.num 2) :=
  ⟨fun _ _ _ _ => ⟨rfl, rfl, rfl, rfl, rfl⟩, fun _ _ => rfl, fun _ _ _ => rfl,
    fun _ _ => rfl, by with_unfolding_all rfl⟩

/-- C7: numeric domain issues are successful results, never errors — "0 / 0"
returns Ok NaN; sqrt/ln of a negative, asin/acos out of range and division by
zero propagate as NaN or infinity to an Ok result; and the operator and
function dispatch never produce an error for any recognised name, whatever
the operand values. -/
theorem claim_C7 :
    evaluate_expression "0 / 0" = Except.ok F64.nan
    ∧ evaluate_expression "sqrt(0-1)" = Except.ok F64.nan
    ∧ evaluate_expression "ln(0-1)" = Except.ok F64.nan
    ∧ evaluate_expression "asin(2)" = Except.ok F64.nan
    ∧ evaluate_expression "acos(2)" = Except.ok F64.nan
    ∧ evaluate_expression "1/0" = Except.ok F64.inf
    ∧ (∀ (op : String) (a b : F64), is_operator op = true → ∃ v, applyOp op a b = Except.ok v)
    ∧ (∀ (func : String) (x : F64), func ∈ functionNames →
        ∃ v, applyFunction func x = Except.ok v) := by
  refine ⟨by with_unfolding_all rfl, by with_unfolding_all rfl, by with_unfolding_all rfl,
    by with_unfolding_all rfl, by with_unfolding_all rfl, by with_unfolding_all rfl, ?_, ?_⟩
  · intro op a b h
    simp only [is_operator, Bool.or_eq_true, beq_iff_eq] at h
    rcases h with (((h | h) | h) | h) | h <;> subst h <;> exact ⟨_, rfl⟩
  · intro func x h
    simp only [functionNames, List.mem_cons, List.not_mem_nil, or_false] at h
    rcases h with h | h | h | h | h | h | h | h | h | h | h | h | h <;> subst h <;>
      exact ⟨_, rfl⟩

/-- Witness for C7 at concrete inputs: division and square root applied to
values in their NaN-producing regions still dispatch to an Ok result. -/
theorem claim_C7_witness :
    (is_operator "/" = true ∧ ∃ v, applyOp "/" (F64.num 1) (F64.num 0) = Except.ok v)
    ∧ ("sqrt" ∈ functionNames ∧ ∃ v, applyFunction "sqrt" (F64.num (-1)) = Except.ok v) :=
  ⟨⟨rfl, claim_C7.2.2.2.2.2.2.1 "/" (F64.num 1) (F64.num 0) rfl⟩,
   ⟨by simp [functionNames],
    claim_C7.2.2.2.2.2.2.2 "sqrt" (F64.num (-1)) (by simp [functionNames])⟩⟩

/-- Counterexample to C8: the lexer's pattern has no alternative for `log`, so
in "log(100)" the name is skipped as unmatched text — no Function token is
produced — and the pipeline returns Ok(100.0), not Ok(2.0). -/
theorem claim_C8_counterexample :
    tokenize "log(100)"
      = Except.ok [Token.LeftParen, Token.Number (F64.num 100), Token.RightParen]
    ∧ ¬ evaluate_expression "log(100)" = Except.ok (F64.num 2) := by
  constructor
  · with_unfolding_all rfl
  · intro h
    have h1 : evaluate_expression "log(100)" = Except.ok (F64.num 100) := by
      with_unfolding_all rfl
    rw [h1] at h
    have h2 := F64.num.inj (Except.ok.inj h)
    norm_num at h2

/-- C8 as amended: the evaluator's dispatch does map the name `log` to the
base-10 logarithm, but the lexer's pattern never produces a `log` Function
token — the substring is dropped — so evaluate_expression "log(100)" returns
Ok(100.0). -/
theorem claim_C8_amended :
    (∀ x : F64, applyFunction "log" x = applyFunction "log10" x)
    ∧ tokenize "log(100)"
      = Except.ok [Token.LeftParen, Token.Number (F64.num 100), Token.RightParen]
    ∧ evaluate_expression "log(100)" = Except.ok (F64.num 100) :=
  ⟨fun _ => rfl, by with_unfolding_all rfl, by with_unfolding_all rfl⟩

/-- Counterexample to C9: only the space character is removed before
tokenization.  A tab is not removed; it is skipped by the lexer as unmatched
text, which splits "1\t2" into two number tokens, so the evaluation differs
from the whitespace-deleted input "12". -/
theorem claim_C9_counterexample :
    specDeleteWhitespace "1\t2" = "12"
    ∧ evaluate_expression "1\t2" = Except.ok (F64.num 2)
    ∧ evaluate_expression "12" = Except.ok (F64.num 12)
    ∧ ¬ evaluate_expression "1\t2" = evaluate_expression (specDeleteWhitespace "1\t2") := by
  refine ⟨by with_unfolding_all rfl, by with_unfolding_all rfl, by with_unfolding_all rfl, ?_⟩
  intro h
  have h1 : evaluate_expression "1\t2" = Except.ok (F64.num 2) := by with_unfolding_all rfl
  have h2 : evaluate_expression (specDeleteWhitespace "1\t2") = Except.ok (F64.num 12) := by
    with_unfolding_all rfl
  rw [h1, h2] at h
  have h3 := F64.num.inj (Except.ok.inj h)
  norm_num at h3

/-- C9 as amended: the entry point deletes exactly the space characters of the
input before tokenization, so evaluation is invariant under deleting spaces
(but not under deleting other whitespace). -/
theorem claim_C9_amended :
    ∀ s : String, evaluate_expression (stripSpaces s) = evaluate_expression s := by
  intro s
  have hidem : stripSpaces (stripSpaces s) = stripSpaces s := by
    simp [stripSpaces, List.filter_filter]
  simp only [evaluate_expression, hidem]

/-- C10: lexer matching is case-sensitive — only the exact lowercase function
names and the uppercase PI/E match; "SIN" is dropped so "SIN(1)" evaluates the
parenthesised 1, and "pi", "Pi", "e" produce no token at all, so "pi" fails
with the no-result error. -/
theorem claim_C10 :
    tokenize "SIN(1)"
      = Except.ok [Token.LeftParen, Token.Number (F64.num 1), Token.RightParen]
    ∧ evaluate_expression "SIN(1)" = Except.ok (F64.num 1)
    ∧ tokenize "pi" = Except.ok []
    ∧ evaluate_expression "pi" = Except.error "Invalid expression: no result on stack"
    ∧ tokenize "Pi" = Except.ok []
    ∧ tokenize "e" = Except.ok []
    ∧ tokenize "PI" = Except.ok [Token.Number F64.pi]
    ∧ tokenize "E" = Except.ok [Token.Number F64.e]
    ∧ tokenize "sin" = Except.ok [Token.Function "sin"] :=
  ⟨by with_unfolding_all rfl, by with_unfolding_all rfl, by with_unfolding_all rfl,
   by with_unfolding_all rfl, by with_unfolding_all rfl, by with_unfolding_all rfl,
   by with_unfolding_all rfl, by with_unfolding_all rfl, by with_unfolding_all rfl⟩
